import Mathlib

/-!
Shallow embedding of the Little Lemon restaurant API
(`restaurant/models.py`, `restaurant/serializers.py`, `restaurant/views.py`).

Conventions:
* decimal money amounts (Django `DecimalField(decimal_places=2)`) are integers
  counted in cents, so decimal sums and products are exact;
* dates are integers (days), times are naturals (minutes since midnight),
  e.g. `time(11, 0)` is `660` and `time(22, 0)` is `1320`;
* a database is explicit state: lists of rows for each table;
* each view/serializer operation is a pure function from a database and the
  request data to a response value paired with the successor database.
-/

/-- A user row (`django.contrib.auth.models.User` plus its group memberships).
`is_staff` is the admin flag; `groups` holds names such as "Manager" and
"Delivery crew". -/
structure UserRec where
  id : Nat
  is_staff : Bool := false
  groups : List String := []
deriving Repr, DecidableEq

/-- `restaurant/models.py` `Menu`: a catalog item; `price` in cents. -/
structure Menu where
  id : Nat
  price : Int
  featured : Bool := false
deriving Repr, DecidableEq

/-- `restaurant/models.py` `Cart`: one cart line.  `unique_together =
['user', 'menuitem']` is enforced at insert/save time (see `CartSerializer`
and the save functions below).  `price` is the line price in cents. -/
structure Cart where
  id : Nat := 0
  user : Nat
  menuitem : Nat
  quantity : Int
  unit_price : Int
  price : Int
deriving Repr, DecidableEq

/-- `restaurant/models.py` `Order`: `status` is a boolean
(False = pending, True = delivered); `total` in cents. -/
structure Order where
  id : Nat
  user : Nat
  delivery_crew : Option Nat := none
  status : Bool := false
  total : Int
  date : Int
deriving Repr, DecidableEq

/-- `restaurant/models.py` `OrderItem`: one order line, `order` is the id of
the owning order; prices in cents. -/
structure OrderItem where
  order : Nat
  menuitem : Nat
  quantity : Int
  unit_price : Int
  price : Int
deriving Repr, DecidableEq

/-- `restaurant/models.py` `Reservation` (fields used by the claims). -/
structure Reservation where
  id : Nat
  user : Nat
  number_of_guests : Int
  reservation_date : Int
  reservation_time : Nat
deriving Repr, DecidableEq

/-- The persistent store: one list of rows per table. -/
structure DB where
  menus : List Menu := []
  carts : List Cart := []
  orders : List Order := []
  orderItems : List OrderItem := []
  users : List UserRec := []
  reservations : List Reservation := []
deriving Repr, DecidableEq

/-- Response outcome of a view operation (the HTTP statuses the views
return): `ok`/`createdRes` are 2xx, `badRequest` is 400 with the given error
message, `forbidden` is 403, `notFound` is 404, and `serverError` is an
unhandled exception surfacing as a 500 (e.g. a database IntegrityError). -/
inductive ApiRes where
  | ok
  | createdRes (id : Nat)
  | badRequest (msg : String)
  | forbidden (msg : String)
  | notFound
  | serverError
deriving Repr, DecidableEq

/-- `permissions.py` `IsManager.has_permission`. -/
def IsManager (u : UserRec) : Bool :=
  "Manager" ∈ u.groups || u.is_staff

/-- `permissions.py` `IsDeliveryCrew.has_permission`. -/
def IsDeliveryCrew (u : UserRec) : Bool :=
  "Delivery crew" ∈ u.groups || "Manager" ∈ u.groups || u.is_staff

/-- `Menu.objects.get(id=mid)` lookup. -/
def findMenu (db : DB) (mid : Nat) : Option Menu :=
  db.menus.find? (fun m => m.id = mid)

namespace CartSerializer

/-- Serializer-level error taxonomy for the cart endpoints. -/
inductive SerErr where
  | badQuantity
  | unknownMenuItem
deriving Repr, DecidableEq

/-- `CartSerializer.create` (serializers.py): after `validate_quantity`
(quantity ≥ 1) and the `menuitem` primary-key field validation, it sets
`unit_price = menuitem.price` and `price = menuitem.price * quantity` and
builds the row (the user comes from `perform_create`). -/
def createLine (db : DB) (cid u mid : Nat) (quantity : Int) :
    Except SerErr Cart :=
  if quantity < 1 then .error .badQuantity
  else
    match findMenu db mid with
    | none => .error .unknownMenuItem
    | some menuitem =>
        .ok { id := cid, user := u, menuitem := mid, quantity := quantity,
              unit_price := menuitem.price,
              price := menuitem.price * quantity }

/-- The `'menuitem' in validated_data` branch of `CartSerializer.update`
(serializers.py): re-snapshot `unit_price` from the submitted item's current
catalog price and recompute `price`. -/
def updateMenuPart (db : DB) (i1 : Cart) (menuitem? : Option Nat) :
    Except SerErr Cart :=
  match menuitem? with
  | some mid =>
      match findMenu db mid with
      | some m =>
          .ok { i1 with menuitem := mid, unit_price := m.price,
                        price := m.price * i1.quantity }
      | none => .error .unknownMenuItem
  | none => .ok i1

/-- `CartSerializer.update` (serializers.py): if `quantity` is submitted
(`validate_quantity` requires at least 1), replace it and recompute `price`
from the *stored* `unit_price`; then the `menuitem` branch
(`updateMenuPart`) runs on the intermediate row. -/
def update (db : DB) (inst : Cart)
    (quantity? : Option Int) (menuitem? : Option Nat) :
    Except SerErr Cart :=
  match quantity? with
  | some q =>
      if q < 1 then .error .badQuantity
      else updateMenuPart db
        { inst with quantity := q, price := inst.unit_price * q } menuitem?
  | none => updateMenuPart db inst menuitem?

end CartSerializer

namespace CartViewSet

/-- `CartViewSet.get_queryset`: users see only their own cart lines. -/
def get_queryset (db : DB) (a : UserRec) : List Cart :=
  db.carts.filter (fun c => c.user = a.id)

/-- Inserting a cart row: the `unique_together = ['user', 'menuitem']`
constraint (models.py) rejects the insert with an IntegrityError — an
unhandled server fault, since no handler catches it — when a row with the
same (user, menuitem) key already exists. -/
def createLine (db : DB) (a : UserRec) (cid mid : Nat) (quantity : Int) :
    ApiRes × DB :=
  match CartSerializer.createLine db cid a.id mid quantity with
  | .error _ => (.badRequest "Invalid cart data", db)
  | .ok line =>
      if db.carts.any (fun c => c.user = a.id && c.menuitem = mid) then
        (.serverError, db)
      else
        (.createdRes cid, { db with carts := db.carts ++ [line] })

/-- PATCH/PUT on one cart line (pk `cid` looked up inside the owner-scoped
queryset), then `inst.save()`; the save hits the same unique constraint
when a submitted `menuitem` collides with another line of the same user. -/
def updateLine (db : DB) (a : UserRec) (cid : Nat)
    (quantity? : Option Int) (menuitem? : Option Nat) : ApiRes × DB :=
  match (get_queryset db a).find? (fun c => c.id = cid) with
  | none => (.notFound, db)
  | some inst =>
      match CartSerializer.update db inst quantity? menuitem? with
      | .error _ => (.badRequest "Invalid cart data", db)
      | .ok line =>
          if db.carts.any (fun c =>
              c.user = a.id && c.menuitem = line.menuitem && c.id ≠ cid) then
            (.serverError, db)
          else
            let carts1 := db.carts.map (fun c => if c.id = cid then line else c)
            (.ok, { db with carts := carts1 })

/-- `CartViewSet.clear`: delete every cart line of the requesting user. -/
def clear (db : DB) (a : UserRec) : DB :=
  { db with carts := db.carts.filter (fun c => ¬ c.user = a.id) }

end CartViewSet

namespace OrderViewSet

/-- `OrderViewSet.get_queryset` (views.py): managers/staff see all orders,
delivery crew see orders assigned to them, everyone else their own. -/
def get_queryset (db : DB) (a : UserRec) : List Order :=
  if a.is_staff || "Manager" ∈ a.groups then
    db.orders
  else if "Delivery crew" ∈ a.groups then
    db.orders.filter (fun o => o.delivery_crew = some a.id)
  else
    db.orders.filter (fun o => o.user = a.id)

/-- The user's cart lines, `Cart.objects.filter(user=request.user)`. -/
def cart_items (db : DB) (u : Nat) : List Cart :=
  db.carts.filter (fun c => c.user = u)

/-- `total = sum(item.price for item in cart_items)`. -/
def cartTotal (db : DB) (u : Nat) : Int :=
  ((cart_items db u).map (fun c => c.price)).sum

/-- The `Order.objects.create(user=..., total=...)` row: model defaults give
`status = False` (pending), `delivery_crew = None`, `date = auto_now_add`. -/
def orderRowFor (u newId : Nat) (today : Int) (total : Int) : Order :=
  { id := newId, user := u, delivery_crew := none, status := false,
    total := total, date := today }

/-- The `OrderItem.objects.create(...)` rows built in the loop of
`OrderViewSet.create`: each copies `menuitem`, `quantity`, `unit_price`
and `price` from one cart line of the user. -/
def orderItemsFor (newId : Nat) (lines : List Cart) : List OrderItem :=
  lines.map (fun c =>
    { order := newId, menuitem := c.menuitem, quantity := c.quantity,
      unit_price := c.unit_price, price := c.price })

/-- One write of the checkout sequence. -/
def insertOrder (o : Order) (db : DB) : DB :=
  { db with orders := db.orders ++ [o] }

/-- One write of the checkout sequence. -/
def insertOrderItem (oi : OrderItem) (db : DB) : DB :=
  { db with orderItems := db.orderItems ++ [oi] }

/-- `cart_items.delete()`: removes every cart line of the user. -/
def deleteUserCart (u : Nat) (db : DB) : DB :=
  { db with carts := db.carts.filter (fun c => ¬ c.user = u) }

/-- The write sequence of `OrderViewSet.create` after the emptiness check:
create the order row, then one order-item row per cart line, then delete the
user's cart lines. -/
def placeOrderEffects (db : DB) (u newId : Nat) (today : Int) :
    List (DB → DB) :=
  [insertOrder (orderRowFor u newId today (cartTotal db u))] ++
    (orderItemsFor newId (cart_items db u)).map insertOrderItem ++
    [deleteUserCart u]

/-- Run a list of state writes in order. -/
def applyEffects (db : DB) (effs : List (DB → DB)) : DB :=
  effs.foldl (fun s f => f s) db

/-- Modelled from the spec: the transactional boundary around the checkout
writes.  The Django transaction configuration (project settings /
`ATOMIC_REQUESTS`) is not part of the sources under `restaurant/`; the spec
states the sequence runs as "a single scoped unit-of-work (begin
transaction, read cart, write order + lines, delete cart,
commit-or-rollback-atomically)".  `failAt = none` is a run without failure;
`failAt = some k` injects a failure before the k-th write (0-based): if `k`
lies inside the sequence the whole transaction rolls back to the entry
state, otherwise every write committed. -/
def runAtomic (db : DB) (effs : List (DB → DB)) (failAt : Option Nat) :
    Option DB :=
  match failAt with
  | none => some (applyEffects db effs)
  | some k => if k < effs.length then none else some (applyEffects db effs)

/-- `OrderViewSet.create` (views.py): reject an empty cart with a 400
"Cart is empty"; otherwise run the checkout write sequence inside the
transactional boundary.  A failure inside the sequence surfaces as a server
fault with the store rolled back. -/
def create (db : DB) (a : UserRec) (newId : Nat) (today : Int)
    (failAt : Option Nat) : ApiRes × DB :=
  if (cart_items db a.id).isEmpty then
    (.badRequest "Cart is empty", db)
  else
    match runAtomic db (placeOrderEffects db a.id newId today) failAt with
    | none => (.serverError, db)
    | some db1 => (.createdRes newId, db1)

/-- Submitted data of an order update request.  `status?`/`delivery_crew?`
are the two writable serializer fields (`none` = key absent; for
`delivery_crew?`, `some none` submits an explicit null).  `total?` stands
for any further submitted key: `total` is declared read-only in
`OrderSerializer.Meta`, so the serializer drops it. -/
structure OrderData where
  status? : Option Bool := none
  delivery_crew? : Option (Option Nat) := none
  total? : Option Int := none
deriving Repr, DecidableEq

/-- The `delivery_crew` field's queryset check
(`User.objects.filter(groups__name='Delivery crew')`): a submitted id must
belong to a user in the Delivery crew group; absent or null passes. -/
def crewFieldValid (db : DB) (v : Option (Option Nat)) : Bool :=
  match v with
  | none => true
  | some none => true
  | some (some uid) =>
      db.users.any (fun us => us.id = uid && "Delivery crew" ∈ us.groups)

/-- Replace the order row with the given id. -/
def setOrder (db : DB) (oid : Nat) (f : Order → Order) : DB :=
  { db with orders := db.orders.map (fun o => if o.id = oid then f o else o) }

/-- Apply the writable serializer fields (`status`, `delivery_crew`) that are
present; every other submitted field is read-only and dropped. -/
def applyOrderData (d : OrderData) (o : Order) : Order :=
  let o1 := match d.status? with
            | some b => { o with status := b }
            | none => o
  match d.delivery_crew? with
  | some v => { o1 with delivery_crew := v }
  | none => o1

/-- `OrderViewSet.update` (views.py).  The `update`/`partial_update` actions
are gated by `IsManager() | IsDeliveryCrew()` before any object lookup; the
object is then fetched from the role-filtered queryset (404 when absent).  A
delivery-crew (non-staff) actor submitting `delivery_crew` gets a 403 and
nothing is written; otherwise only `{'status': request.data.get('status')}`
is passed on (a missing status becomes an explicit null, which the boolean
field rejects as a 400).  Managers/staff fall through to the serializer with
the full submitted data. -/
def update (db : DB) (a : UserRec) (oid : Nat) (d : OrderData) :
    ApiRes × DB :=
  if ¬ (IsManager a || IsDeliveryCrew a) then
    (.forbidden "You do not have permission to perform this action.", db)
  else
    match (get_queryset db a).find? (fun o => o.id = oid) with
    | none => (.notFound, db)
    | some _ =>
        if "Delivery crew" ∈ a.groups && !a.is_staff then
          if d.delivery_crew?.isSome then
            (.forbidden "Delivery crew cannot assign orders", db)
          else
            match d.status? with
            | none => (.badRequest "This field may not be null.", db)
            | some b => (.ok, setOrder db oid (fun o => { o with status := b }))
        else
          if crewFieldValid db d.delivery_crew? then
            (.ok, setOrder db oid (applyOrderData d))
          else
            (.badRequest "Invalid delivery crew", db)

/-- `OrderViewSet.assign_delivery_crew` (views.py): manager-only action;
looks the submitted id up among Delivery crew members (404 otherwise) and
sets the order's `delivery_crew`. -/
def assign_delivery_crew (db : DB) (a : UserRec) (oid : Nat)
    (delivery_crew_id : Nat) : ApiRes × DB :=
  if ¬ IsManager a then
    (.forbidden "You do not have permission to perform this action.", db)
  else
    match (get_queryset db a).find? (fun o => o.id = oid) with
    | none => (.notFound, db)
    | some _ =>
        if db.users.any (fun us =>
            us.id = delivery_crew_id && "Delivery crew" ∈ us.groups) then
          (.ok, setOrder db oid
            (fun o => { o with delivery_crew := some delivery_crew_id }))
        else
          (.badRequest "User not found or not in delivery crew", db)

/-- GET /orders/{id}/ — `IsAuthenticated` then lookup in the role-filtered
queryset; a row outside the actor's queryset is indistinguishable from an
absent row (404). -/
def retrieve (db : DB) (a : UserRec) (oid : Nat) : ApiRes × DB :=
  match (get_queryset db a).find? (fun o => o.id = oid) with
  | none => (.notFound, db)
  | some _ => (.ok, db)

end OrderViewSet

namespace ReservationViewSet

/-- `ReservationViewSet.get_queryset`: staff see all reservations, everyone
else only their own. -/
def get_queryset (db : DB) (a : UserRec) : List Reservation :=
  if a.is_staff then db.reservations
  else db.reservations.filter (fun r => r.user = a.id)

/-- GET /reservations/{id}/ — lookup in the owner-scoped queryset. -/
def retrieve (db : DB) (a : UserRec) (rid : Nat) : ApiRes × DB :=
  match (get_queryset db a).find? (fun r => r.id = rid) with
  | none => (.notFound, db)
  | some _ => (.ok, db)

end ReservationViewSet

/-- GET /cart/{id}/ — lookup in the owner-scoped cart queryset. -/
def CartViewSet.retrieve (db : DB) (a : UserRec) (cid : Nat) :
    ApiRes × DB :=
  match (CartViewSet.get_queryset db a).find? (fun c => c.id = cid) with
  | none => (.notFound, db)
  | some _ => (.ok, db)

/-- `MenuViewSet` admin update of a catalog price (the later "MenuItem price
change" the order snapshot must be independent of). -/
def menuSetPrice (db : DB) (mid : Nat) (p : Int) : DB :=
  { db with menus := db.menus.map (fun m => if m.id = mid then { m with price := p } else m) }

/-- `MenuViewSet.update_featured` (manager action on the catalog). -/
def update_featured (db : DB) (mid : Nat) (b : Bool) : DB :=
  { db with menus := db.menus.map (fun m => if m.id = mid then { m with featured := b } else m) }

/-- `MenuViewSet.destroy` — the admin DELETE /menu-items/{id}/ endpoint of
the `Menu` ModelViewSet (views.py routes non-read actions to `IsAdminUser`).
Deleting the catalog row cascades: `Cart.menuitem` and `OrderItem.menuitem`
are both declared `on_delete=models.CASCADE` (models.py), so every cart
line and every order line referencing the item is deleted with it; order
rows and their `total` are untouched. -/
def menuDestroy (db : DB) (mid : Nat) : DB :=
  { db with
      menus := db.menus.filter (fun m => ¬ m.id = mid),
      carts := db.carts.filter (fun c => ¬ c.menuitem = mid),
      orderItems := db.orderItems.filter (fun oi => ¬ oi.menuitem = mid) }

namespace ReservationSerializer

/-- Outcome of running the reservation serializer validation.  The first
five constructors mirror the distinct `ValidationError` messages raised in
`serializers.py`, each tied to one field (see `fieldOf`); `typeError` is a
Python `TypeError` escaping the serializer (an unhandled exception, not a
validation outcome). -/
inductive RErr where
  | guestsMin
  | guestsMax
  | dateInPast
  | timeInPast
  | outsideHours
  | typeError
deriving Repr, DecidableEq

/-- The field each validation error is attached to (`typeError` is not a
field-level error; it propagates as an exception). -/
def fieldOf : RErr → String
  | .guestsMin => "number_of_guests"
  | .guestsMax => "number_of_guests"
  | .dateInPast => "reservation_date"
  | .timeInPast => "reservation_time"
  | .outsideHours => "reservation_time"
  | .typeError => "unhandled TypeError"

/-- `validate_number_of_guests`: at least 1 and at most 20, with two
distinct messages. -/
def validate_number_of_guests (v : Int) : Except RErr Int :=
  if v < 1 then .error .guestsMin
  else if v > 20 then .error .guestsMax
  else .ok v

/-- `validate_reservation_date`: rejects a date strictly before today. -/
def validate_reservation_date (today : Int) (v : Int) : Except RErr Int :=
  if v < today then .error .dateInPast
  else .ok v

/-- `time(11, 0)` in minutes. -/
def opening_time : Nat := 660

/-- `time(22, 0)` in minutes. -/
def closing_time : Nat := 1320

/-- The business-hours line of `ReservationSerializer.validate`:
`if reservation_time < opening_time or reservation_time > closing_time`.
On a missing (`None`) time the first comparison raises `TypeError` before
the `or` is decided. -/
def businessHoursCheck (reservation_time? : Option Nat) : Except RErr Unit :=
  match reservation_time? with
  | none => .error .typeError
  | some t =>
      if t < opening_time then .error .outsideHours
      else if closing_time < t then .error .outsideHours
      else .ok ()

/-- `ReservationSerializer.validate` (serializers.py): cross-field check on
`attrs.get('reservation_date')` / `attrs.get('reservation_time')` — the
`.get` calls yield `None` for a field absent from the submitted data, and
the subsequent `<`/`>` comparisons have no `None` guard.  Python evaluates
`reservation_date == date.today()` as `False` when the date is `None`, so
the today-branch is entered only for a submitted date equal to today; a
`None` time compared with `current_time` there also raises `TypeError`. -/
def validate (today : Int) (now : Nat)
    (reservation_date? : Option Int) (reservation_time? : Option Nat) :
    Except RErr Unit :=
  if reservation_date? = some today then
    match reservation_time? with
    | none => .error .typeError
    | some t =>
        if t < now then .error .timeInPast
        else businessHoursCheck reservation_time?
  else businessHoursCheck reservation_time?

/-- The tail of the validation pipeline: the `reservation_date` field
validator on a submitted date, then the cross-field `validate`. -/
def runDateAndCross (today : Int) (now : Nat)
    (reservation_date? : Option Int) (reservation_time? : Option Nat) :
    Except RErr Unit :=
  match reservation_date? with
  | some d =>
      match validate_reservation_date today d with
      | .error e => .error e
      | .ok _ => validate today now reservation_date? reservation_time?
  | none => validate today now reservation_date? reservation_time?

/-- The framework's validation pipeline: per-field validators run first on
the submitted fields (absent fields are skipped; any field error is
returned without reaching `validate`), then `validate` runs on the
submitted data. -/
def runValidation (today : Int) (now : Nat)
    (guests? : Option Int) (reservation_date? : Option Int)
    (reservation_time? : Option Nat) : Except RErr Unit :=
  match guests? with
  | some g =>
      match validate_number_of_guests g with
      | .error e => .error e
      | .ok _ => runDateAndCross today now reservation_date? reservation_time?
  | none => runDateAndCross today now reservation_date? reservation_time?

end ReservationSerializer

/-- POST /reservations/: create runs the full pipeline with every field
present and, on success, persists the row for the requesting user. -/
def reservationCreate (today : Int) (now : Nat) (rid u : Nat)
    (guests : Int) (rdate : Int) (rtime : Nat) :
    Except ReservationSerializer.RErr Reservation :=
  match ReservationSerializer.runValidation today now
      (some guests) (some rdate) (some rtime) with
  | .error e => .error e
  | .ok _ =>
      .ok { id := rid, user := u, number_of_guests := guests,
            reservation_date := rdate, reservation_time := rtime }

/-- One API operation that can run after an order was placed (the
operations embedded above, with their request data). -/
inductive Op where
  | opCartCreate (a : UserRec) (cid mid : Nat) (q : Int)
  | opCartUpdate (a : UserRec) (cid : Nat) (q? : Option Int) (mid? : Option Nat)
  | opCartClear (a : UserRec)
  | opOrderCreate (a : UserRec) (newId : Nat) (today : Int) (failAt : Option Nat)
  | opOrderUpdate (a : UserRec) (oid : Nat) (d : OrderViewSet.OrderData)
  | opAssignCrew (a : UserRec) (oid uid : Nat)
  | opMenuSetPrice (mid : Nat) (p : Int)
  | opMenuSetFeatured (mid : Nat) (b : Bool)
  | opMenuDestroy (mid : Nat)

/-- The state transition of one operation (its response value dropped). -/
def applyOp (db : DB) : Op → DB
  | .opCartCreate a cid mid q => (CartViewSet.createLine db a cid mid q).2
  | .opCartUpdate a cid q? mid? => (CartViewSet.updateLine db a cid q? mid?).2
  | .opCartClear a => CartViewSet.clear db a
  | .opOrderCreate a newId today failAt =>
      (OrderViewSet.create db a newId today failAt).2
  | .opOrderUpdate a oid d => (OrderViewSet.update db a oid d).2
  | .opAssignCrew a oid uid =>
      (OrderViewSet.assign_delivery_crew db a oid uid).2
  | .opMenuSetPrice mid p => menuSetPrice db mid p
  | .opMenuSetFeatured mid b => update_featured db mid b
  | .opMenuDestroy mid => menuDestroy db mid

/-- An operation avoids creating a fresh order under the id `oid` (order
ids are primary keys, so a later checkout never reuses an existing id). -/
def opAvoids (oid : Nat) : Op → Prop
  | .opOrderCreate _ newId _ _ => newId ≠ oid
  | _ => True

/-- An operation does not delete a menu item among `mids` (the items
referenced by a tracked order): a menu deletion cascades into the order
lines, so only deletions of other items leave them intact. -/
def opAvoidsMenuOf (mids : List Nat) : Op → Prop
  | .opMenuDestroy mid => mid ∉ mids
  | _ => True

/-- The order lines of order `oid`. -/
def orderLinesOf (db : DB) (oid : Nat) : List OrderItem :=
  db.orderItems.filter (fun oi => oi.order = oid)

/-- Sum of the line prices of order `oid`. -/
def orderLinesTotal (db : DB) (oid : Nat) : Int :=
  ((orderLinesOf db oid).map (fun oi => oi.price)).sum

theorem cart_smoke1 :
    (CartViewSet.createLine
      { menus := [{ id := 5, price := 1299 }] }
      { id := 1 } 10 5 2).2.carts =
    [{ id := 10, user := 1, menuitem := 5, quantity := 2,
       unit_price := 1299, price := 2598 }] := by decide

namespace OrderViewSet

theorem applyEffects_append (db : DB) (l1 l2 : List (DB → DB)) :
    applyEffects db (l1 ++ l2) = applyEffects (applyEffects db l1) l2 := by
  simp [applyEffects, List.foldl_append]

theorem applyEffects_insertItems (l : List OrderItem) :
    ∀ s : DB, applyEffects s (l.map insertOrderItem) =
      { s with orderItems := s.orderItems ++ l } := by
  induction l with
  | nil => intro s; simp [applyEffects]
  | cons x xs ih =>
      intro s
      have h1 : applyEffects s ((x :: xs).map insertOrderItem) =
          applyEffects (insertOrderItem x s) (xs.map insertOrderItem) := by
        simp [applyEffects]
      rw [h1, ih, insertOrderItem]
      simp

/-- The committed state of the checkout write sequence: the order row and
one order line per cart line appended, every cart line of the user gone,
and nothing else changed. -/
theorem placeOrder_commit (db : DB) (u newId : Nat) (today : Int) :
    applyEffects db (placeOrderEffects db u newId today) =
      { db with
          orders := db.orders ++ [orderRowFor u newId today (cartTotal db u)],
          orderItems := db.orderItems ++ orderItemsFor newId (cart_items db u),
          carts := db.carts.filter (fun c => ¬ c.user = u) } := by
  rw [placeOrderEffects, applyEffects_append, applyEffects_append]
  have h1 : applyEffects db [insertOrder (orderRowFor u newId today (cartTotal db u))] =
      { db with orders := db.orders ++ [orderRowFor u newId today (cartTotal db u)] } := by
    simp [applyEffects, insertOrder]
  rw [h1, applyEffects_insertItems]
  simp [applyEffects, deleteUserCart]

end OrderViewSet

/-- C7: for a user whose cart holds no lines, `OrderViewSet.create` returns
the dedicated 400 "Cart is empty" validation response (not a server fault)
and leaves the store untouched: no Order row and no OrderItem rows. -/
theorem placeOrder_empty_cart (db : DB) (a : UserRec) (newId : Nat)
    (today : Int) (failAt : Option Nat)
    (h : OrderViewSet.cart_items db a.id = []) :
    OrderViewSet.create db a newId today failAt =
      (.badRequest "Cart is empty", db) := by
  simp [OrderViewSet.create, h]

/-- Witness for `placeOrder_empty_cart`. -/
theorem placeOrder_empty_cart_witness :
    OrderViewSet.create { menus := [{ id := 5, price := 1299 }] }
        { id := 1 } 7 0 none =
      (.badRequest "Cart is empty", { menus := [{ id := 5, price := 1299 }] }) :=
  placeOrder_empty_cart _ _ _ _ _ (by decide)

/-- C1: checkout is all-or-nothing.  For a user with a non-empty cart, a run
of `OrderViewSet.create` either persists the order row plus one order line
per cart line and deletes exactly that user's cart lines, or — when a
failure hits any step of the write sequence — returns a fault with every
table exactly as before the call. -/
theorem placeOrder_atomic (db : DB) (a : UserRec) (newId : Nat)
    (today : Int) (failAt : Option Nat)
    (hne : OrderViewSet.cart_items db a.id ≠ []) :
    OrderViewSet.create db a newId today failAt = (.serverError, db) ∨
    OrderViewSet.create db a newId today failAt =
      (.createdRes newId,
       { db with
           orders := db.orders ++
             [OrderViewSet.orderRowFor a.id newId today
               (OrderViewSet.cartTotal db a.id)],
           orderItems := db.orderItems ++
             OrderViewSet.orderItemsFor newId (OrderViewSet.cart_items db a.id),
           carts := db.carts.filter (fun c => ¬ c.user = a.id) }) := by
  have hni : (OrderViewSet.cart_items db a.id).isEmpty = false := by
    simpa [List.isEmpty_iff] using hne
  rw [OrderViewSet.create, hni]
  simp only [Bool.false_eq_true, if_false]
  match failAt with
  | none =>
      right
      rw [OrderViewSet.runAtomic, OrderViewSet.placeOrder_commit]
  | some k =>
      rw [OrderViewSet.runAtomic]
      by_cases hk : k < (OrderViewSet.placeOrderEffects db a.id newId today).length
      · left; rw [if_pos hk]
      · right; rw [if_neg hk, OrderViewSet.placeOrder_commit]

/-- Witness for `placeOrder_atomic`. -/
theorem placeOrder_atomic_witness :
    OrderViewSet.create
        { menus := [{ id := 5, price := 1299 }],
          carts := [{ id := 1, user := 1, menuitem := 5, quantity := 2,
                      unit_price := 1299, price := 2598 }] }
        { id := 1 } 7 0 none =
      (.serverError,
       { menus := [{ id := 5, price := 1299 }],
         carts := [{ id := 1, user := 1, menuitem := 5, quantity := 2,
                     unit_price := 1299, price := 2598 }] }) ∨
    OrderViewSet.create
        { menus := [{ id := 5, price := 1299 }],
          carts := [{ id := 1, user := 1, menuitem := 5, quantity := 2,
                      unit_price := 1299, price := 2598 }] }
        { id := 1 } 7 0 none =
      (.createdRes 7,
       { menus := [{ id := 5, price := 1299 }],
         orders := [{ id := 7, user := 1, delivery_crew := none,
                      status := false, total := 2598, date := 0 }],
         orderItems := [{ order := 7, menuitem := 5, quantity := 2,
                          unit_price := 1299, price := 2598 }] }) :=
  placeOrder_atomic _ _ _ _ _ (by decide)

/-- Inversion of a successful `CartSerializer.createLine`. -/
theorem cart_createLine_ok (db : DB) (cid u mid : Nat) (q : Int) (line : Cart)
    (h : CartSerializer.createLine db cid u mid q = .ok line) :
    ∃ m, findMenu db mid = some m ∧ 1 ≤ q ∧
      line = { id := cid, user := u, menuitem := mid, quantity := q,
               unit_price := m.price, price := m.price * q } := by
  rw [CartSerializer.createLine] at h
  split at h
  · exact absurd h (by simp)
  next hq =>
    cases hm : findMenu db mid with
    | none => rw [hm] at h; exact absurd h (by simp)
    | some m =>
        rw [hm] at h
        refine ⟨m, rfl, by omega, ?_⟩
        cases h
        rfl

/-- C3: line-price integrity of cart mutations.  A successful create
snapshots `unit_price` from the catalog and satisfies
`price = unit_price × quantity`; every successful update satisfies the same
equation; a quantity-only update keeps the stored `unit_price`, recomputes
`price` from it, and does not read the catalog at all (the result is the
same over any other catalog state `db2`); an update that changes `menuitem`
re-snapshots `unit_price` from the submitted item's current catalog
price. -/
theorem cart_mutation_line_price (db db2 : DB) (cid u mid : Nat) (q : Int)
    (inst : Cart) (quantity? : Option Int) (menuitem? : Option Nat)
    (c1 c2 : Cart)
    (h1 : CartSerializer.createLine db cid u mid q = .ok c1)
    (h2 : CartSerializer.update db inst quantity? menuitem? = .ok c2)
    (hinv : inst.price = inst.unit_price * inst.quantity) :
    (c1.price = c1.unit_price * c1.quantity ∧
      (∀ m, findMenu db mid = some m → c1.unit_price = m.price)) ∧
    c2.price = c2.unit_price * c2.quantity ∧
    (menuitem? = none →
      c2.unit_price = inst.unit_price ∧
      (∀ q0, quantity? = some q0 → c2.price = inst.unit_price * q0) ∧
      CartSerializer.update db2 inst quantity? none = .ok c2) ∧
    (∀ mid0 m0, menuitem? = some mid0 → findMenu db mid0 = some m0 →
      c2.unit_price = m0.price ∧ c2.price = m0.price * c2.quantity) := by
  obtain ⟨m, hm, hq, hc1⟩ := cart_createLine_ok db cid u mid q c1 h1
  refine ⟨⟨by rw [hc1], fun m0 hm0 => by rw [hm] at hm0; cases hm0; rw [hc1]⟩, ?_⟩
  cases quantity? with
  | none =>
      cases menuitem? with
      | none =>
          simp only [CartSerializer.update, CartSerializer.updateMenuPart,
            Except.ok.injEq] at h2
          subst h2
          refine ⟨hinv, fun _ => ⟨rfl, ?_, rfl⟩, ?_⟩
          · intro q1 hq1; exact Option.noConfusion hq1
          · intro mid1 m2 he _; exact Option.noConfusion he
      | some mid0 =>
          cases hfm : findMenu db mid0 with
          | none =>
              simp only [CartSerializer.update, CartSerializer.updateMenuPart,
                hfm] at h2
              exact Except.noConfusion h2
          | some m1 =>
              simp only [CartSerializer.update, CartSerializer.updateMenuPart,
                hfm, Except.ok.injEq] at h2
              subst h2
              refine ⟨rfl, ?_, ?_⟩
              · intro hno; exact Option.noConfusion hno
              · intro mid1 m2 he hf
                injection he with he1
                subst he1
                rw [hfm] at hf
                injection hf with hf1
                subst hf1
                exact ⟨rfl, rfl⟩
  | some q0 =>
      by_cases hlt : q0 < 1
      · simp only [CartSerializer.update, if_pos hlt] at h2
        exact Except.noConfusion h2
      · cases menuitem? with
        | none =>
            simp only [CartSerializer.update, if_neg hlt,
              CartSerializer.updateMenuPart, Except.ok.injEq] at h2
            subst h2
            refine ⟨rfl, fun _ => ⟨rfl, ?_, ?_⟩, ?_⟩
            · intro q1 hq1; injection hq1 with hq1; subst hq1; rfl
            · simp only [CartSerializer.update, if_neg hlt,
                CartSerializer.updateMenuPart]
            · intro mid1 m2 he _; exact Option.noConfusion he
        | some mid0 =>
            cases hfm : findMenu db mid0 with
            | none =>
                simp only [CartSerializer.update, if_neg hlt,
                  CartSerializer.updateMenuPart, hfm] at h2
                exact Except.noConfusion h2
            | some m1 =>
                simp only [CartSerializer.update, if_neg hlt,
                  CartSerializer.updateMenuPart, hfm, Except.ok.injEq] at h2
                subst h2
                refine ⟨rfl, ?_, ?_⟩
                · intro hno; exact Option.noConfusion hno
                · intro mid1 m2 he hf
                  injection he with he1
                  subst he1
                  rw [hfm] at hf
                  injection hf with hf1
                  subst hf1
                  exact ⟨rfl, rfl⟩

/-- Concrete store for the cart witnesses: one catalog item at 12.99. -/
def dbW3 : DB := { menus := [{ id := 5, price := 1299 }] }

/-- A stored cart line of user 1 for item 5 (quantity 2 at 12.99). -/
def instW3 : Cart :=
  { id := 1, user := 1, menuitem := 5, quantity := 2,
    unit_price := 1299, price := 2598 }

/-- Witness for `cart_mutation_line_price`: create of (user 1, item 5,
qty 2) and a quantity-only update to 3 both succeed concretely. -/
theorem cart_mutation_line_price_witness :
    ({ id := 1, user := 1, menuitem := 5, quantity := 3,
       unit_price := 1299, price := 3897 } : Cart).price =
      ({ id := 1, user := 1, menuitem := 5, quantity := 3,
         unit_price := 1299, price := 3897 } : Cart).unit_price *
      ({ id := 1, user := 1, menuitem := 5, quantity := 3,
         unit_price := 1299, price := 3897 } : Cart).quantity :=
  (cart_mutation_line_price dbW3 dbW3 2 1 5 2 instW3 (some 3) none
    { id := 2, user := 1, menuitem := 5, quantity := 2,
      unit_price := 1299, price := 2598 }
    { id := 1, user := 1, menuitem := 5, quantity := 3,
      unit_price := 1299, price := 3897 }
    (by rfl) (by rfl) (by decide)).2.1

/-- A store whose cart already holds a line (user 1, item 5, quantity 1). -/
def db4 : DB :=
  { menus := [{ id := 5, price := 1299 }],
    carts := [{ id := 1, user := 1, menuitem := 5, quantity := 1,
                unit_price := 1299, price := 1299 }] }

/-- The customer owning that cart line. -/
def alice : UserRec := { id := 1 }

/-- C4 counterexample: adding item 5 again for user 1 does NOT merge into a
quantity update on the existing row — the unique-key insert fails as an
unhandled IntegrityError (server fault) and the stored quantity stays 1. -/
theorem cart_readd_conflicts :
    CartViewSet.createLine db4 alice 2 5 3 = (.serverError, db4) ∧
    ((CartViewSet.createLine db4 alice 2 5 3).2.carts.map
      (fun c => c.quantity)) = [1] := by
  constructor <;> rfl

/-- No two cart rows share a (user, menuitem) key. -/
def cartKeysNodup (db : DB) : Prop :=
  (db.carts.map (fun c => (c.user, c.menuitem))).Nodup

/-- C4 amended: re-adding an existing (user, menuitem) pair does not merge —
the insert hits the `unique_together` constraint and fails as a server
fault, leaving the store unchanged; and a cart create never produces a
duplicate key, so a user never holds two cart lines for one menu item. -/
theorem cart_add_conflict_not_merge (db : DB) (a : UserRec)
    (cid mid : Nat) (q : Int) :
    (db.carts.any (fun c => c.user = a.id && c.menuitem = mid) = true →
      1 ≤ q → (findMenu db mid).isSome = true →
      CartViewSet.createLine db a cid mid q = (.serverError, db)) ∧
    (cartKeysNodup db → cartKeysNodup (CartViewSet.createLine db a cid mid q).2) := by
  constructor
  · intro hdup hq hsome
    obtain ⟨m, hm⟩ := Option.isSome_iff_exists.mp hsome
    rw [CartViewSet.createLine, CartSerializer.createLine,
      if_neg (by omega : ¬ q < 1), hm, hdup]
    rfl
  · intro hnd
    rw [CartViewSet.createLine]
    cases hc : CartSerializer.createLine db cid a.id mid q with
    | error e => exact hnd
    | ok line =>
        dsimp only
        by_cases hdup : (db.carts.any (fun c => c.user = a.id && c.menuitem = mid)) = true
        · rw [if_pos hdup]; exact hnd
        · rw [if_neg hdup]
          obtain ⟨m, hm, hq, hline⟩ := cart_createLine_ok db cid a.id mid q line hc
          show ((db.carts ++ [line]).map (fun c => (c.user, c.menuitem))).Nodup
          rw [List.map_append, List.nodup_append]
          refine ⟨hnd, by simp, ?_⟩
          intro x hx hx1
          simp only [List.map_cons, List.map_nil, List.mem_singleton] at hx1
          subst hx1
          obtain ⟨c, hcmem, hck⟩ := List.mem_map.mp hx
          apply hdup
          rw [List.any_eq_true]
          refine ⟨c, hcmem, ?_⟩
          have h1 : c.user = line.user := congrArg Prod.fst hck
          have h2 : c.menuitem = line.menuitem := congrArg Prod.snd hck
          rw [hline] at h1 h2
          simp_all

/-- Witness for `cart_add_conflict_not_merge`. -/
theorem cart_add_conflict_not_merge_witness :
    CartViewSet.createLine db4 alice 7 5 3 = (.serverError, db4) :=
  (cart_add_conflict_not_merge db4 alice 7 5 3).1 (by rfl) (by decide) (by rfl)

/-- C5: a delivery-crew (non-staff) actor updating an order they can reach:
if the submitted data contains the `delivery_crew` key the request is
rejected with 403 and the store is untouched; otherwise exactly the
submitted `status` value is applied and every other submitted field (e.g. a
submitted `total`) is dropped — the successor state differs from the old
one only in that order's `status`. -/
theorem crew_update_status_only (db : DB) (a : UserRec) (oid : Nat)
    (d : OrderViewSet.OrderData)
    (hcrew : "Delivery crew" ∈ a.groups) (hstaff : a.is_staff = false)
    (hfound : ((OrderViewSet.get_queryset db a).find?
      (fun o => o.id = oid)).isSome = true) :
    (d.delivery_crew?.isSome = true →
      OrderViewSet.update db a oid d =
        (.forbidden "Delivery crew cannot assign orders", db)) ∧
    (∀ b, d.delivery_crew? = none → d.status? = some b →
      OrderViewSet.update db a oid d =
        (.ok, OrderViewSet.setOrder db oid (fun o => { o with status := b }))) := by
  obtain ⟨o0, ho0⟩ := Option.isSome_iff_exists.mp hfound
  have hdc : IsDeliveryCrew a = true := by simp [IsDeliveryCrew, hcrew]
  have hbr : (decide ("Delivery crew" ∈ a.groups) && !a.is_staff) = true := by
    simp [hcrew, hstaff]
  constructor
  · intro hsome
    rw [OrderViewSet.update, if_neg (by simp [hdc]), ho0]
    dsimp only
    rw [if_pos hbr, if_pos hsome]
  · intro b hdcnone hst
    rw [OrderViewSet.update, if_neg (by simp [hdc]), ho0]
    dsimp only
    rw [if_pos hbr, hdcnone]
    dsimp only [Option.isSome]
    rw [if_neg (by simp), hst]

/-- A store with one pending order of user 2 assigned to delivery user 3. -/
def db5 : DB :=
  { orders := [{ id := 1, user := 2, delivery_crew := some 3,
                 status := false, total := 2598, date := 0 }] }

/-- The delivery-crew member assigned to that order. -/
def crewUser : UserRec := { id := 3, groups := ["Delivery crew"] }

/-- Witness for `crew_update_status_only`: the assigned crew member patches
status to delivered (with a stray `total` in the payload, which is
dropped). -/
theorem crew_update_status_only_witness :
    OrderViewSet.update db5 crewUser 1
        { status? := some true, total? := some 9999 } =
      (.ok, OrderViewSet.setOrder db5 1 (fun o => { o with status := true })) :=
  (crew_update_status_only db5 crewUser 1
      { status? := some true, total? := some 9999 }
      (by decide) (by rfl) (by rfl)).2 true rfl rfl

/-- A store with one delivered order of user 2, and a manager actor. -/
def db6 : DB :=
  { orders := [{ id := 1, user := 2, delivery_crew := none,
                 status := true, total := 2598, date := 0 }] }

/-- A manager (member of the Manager group, not staff). -/
def mgr : UserRec := { id := 9, groups := ["Manager"] }

/-- C6 counterexample: a single manager update with `{status: false}` moves
order 1 from delivered back to pending — the pending → delivered transition
is not one-way. -/
theorem delivered_reverts_to_pending :
    (db6.orders.map (fun o => o.status)) = [true] ∧
    (OrderViewSet.update db6 mgr 1 { status? := some false }).1 = .ok ∧
    ((OrderViewSet.update db6 mgr 1
      { status? := some false }).2.orders.map (fun o => o.status)) = [false] := by
  refine ⟨rfl, ?_, ?_⟩ <;> rfl

/-- C6 amended: order status is a two-valued pending/delivered flag, but
transitions are unguarded — a manager (or staff) update applies any
submitted status value regardless of the current one, so delivered orders
can return to pending; the only constraint is that no third status value
exists (the field is boolean). -/
theorem order_status_unguarded (db : DB) (a : UserRec) (oid : Nat)
    (d : OrderViewSet.OrderData) (b : Bool)
    (hmgr : "Manager" ∈ a.groups) (hnotcrew : "Delivery crew" ∉ a.groups)
    (hst : d.status? = some b)
    (hcv : OrderViewSet.crewFieldValid db d.delivery_crew? = true)
    (hfound : ((OrderViewSet.get_queryset db a).find?
      (fun o => o.id = oid)).isSome = true) :
    ∀ o ∈ (OrderViewSet.update db a oid d).2.orders, o.id = oid →
      o.status = b := by
  obtain ⟨o0, ho0⟩ := Option.isSome_iff_exists.mp hfound
  have hm : IsManager a = true := by simp [IsManager, hmgr]
  rw [OrderViewSet.update, if_neg (by simp [hm]), ho0]
  dsimp only
  rw [if_neg (by simp [hnotcrew]), if_pos hcv]
  intro o ho hid
  simp only [OrderViewSet.setOrder, List.mem_map] at ho
  obtain ⟨o1, _, ho1⟩ := ho
  by_cases h1 : o1.id = oid
  · rw [if_pos h1] at ho1
    subst ho1
    simp [OrderViewSet.applyOrderData, hst]
    cases hdc : d.delivery_crew? <;> simp [hdc]
  · rw [if_neg h1] at ho1
    subst ho1
    exact absurd hid h1

/-- Witness for `order_status_unguarded`: the concrete delivered order of
`db6` is reset to pending by the manager. -/
theorem order_status_unguarded_witness :
    ({ id := 1, user := 2, delivery_crew := none, status := false,
       total := 2598, date := 0 } : Order).status = false :=
  order_status_unguarded db6 mgr 1 { status? := some false } false
    (by decide) (by decide) rfl rfl rfl
    { id := 1, user := 2, delivery_crew := none, status := false,
      total := 2598, date := 0 }
    (by decide) (by decide)

/-- A store with one order owned by user 2, and a plain customer, user 1. -/
def db8 : DB := { orders := [{ id := 1, user := 2, total := 100, date := 0 }] }

/-- An authenticated customer: no groups, not staff. -/
def customerB : UserRec := { id := 1 }

/-- C8 counterexample: a customer updating an order owned by someone else
receives a forbidden outcome, not a not-found one — the `update` action's
role gate (`IsManager | IsDeliveryCrew`) rejects customers before any row
lookup. -/
theorem nonowner_update_forbidden :
    customerB.is_staff = false ∧ customerB.groups = [] ∧
    (db8.orders.map (fun o => o.user)) = [2] ∧ customerB.id = 1 ∧
    (OrderViewSet.update db8 customerB 1 { status? := some true }).1 =
      .forbidden "You do not have permission to perform this action." := by
  refine ⟨rfl, rfl, rfl, rfl, rfl⟩

/-- C8 amended: ownership mismatch is hidden as not-found for every
operation that reaches the row lookup — retrieval of another user's Order,
Reservation or Cart row, and a delivery-crew update of an order not
assigned to the actor, all answer exactly as for an absent row — but the
order `update` action is role-gated before any lookup, so a plain customer
receives a forbidden outcome there regardless of which row is addressed. -/
theorem ownership_hidden_as_notfound (db : DB) (a : UserRec)
    (oid rid cid : Nat) (d : OrderViewSet.OrderData) :
    (a.is_staff = false → "Manager" ∉ a.groups → "Delivery crew" ∉ a.groups →
      (∀ o ∈ db.orders, o.id = oid → o.user ≠ a.id) →
      OrderViewSet.retrieve db a oid = (.notFound, db)) ∧
    (a.is_staff = false →
      (∀ r ∈ db.reservations, r.id = rid → r.user ≠ a.id) →
      ReservationViewSet.retrieve db a rid = (.notFound, db)) ∧
    ((∀ c ∈ db.carts, c.id = cid → c.user ≠ a.id) →
      CartViewSet.retrieve db a cid = (.notFound, db)) ∧
    (a.is_staff = false → "Manager" ∉ a.groups → "Delivery crew" ∈ a.groups →
      (∀ o ∈ db.orders, o.id = oid → o.delivery_crew ≠ some a.id) →
      OrderViewSet.update db a oid d = (.notFound, db)) ∧
    (a.is_staff = false → "Manager" ∉ a.groups → "Delivery crew" ∉ a.groups →
      OrderViewSet.update db a oid d =
        (.forbidden "You do not have permission to perform this action.", db)) := by
  refine ⟨?_, ?_, ?_, ?_, ?_⟩
  · intro hs hm hdc hown
    have hq : OrderViewSet.get_queryset db a =
        db.orders.filter (fun o => o.user = a.id) := by
      rw [OrderViewSet.get_queryset, if_neg (by simp [hs, hm]),
        if_neg (by simp [hdc])]
    rw [OrderViewSet.retrieve, hq]
    have hfn : (db.orders.filter (fun o => o.user = a.id)).find?
        (fun o => o.id = oid) = none := by
      rw [List.find?_eq_none]
      intro o ho
      obtain ⟨hmem, hu⟩ := List.mem_filter.mp ho
      simp only [decide_eq_true_eq] at hu ⊢
      intro hoid
      exact hown o hmem hoid hu
    rw [hfn]
  · intro hs hown
    have hq : ReservationViewSet.get_queryset db a =
        db.reservations.filter (fun r => r.user = a.id) := by
      rw [ReservationViewSet.get_queryset, if_neg (by simp [hs])]
    rw [ReservationViewSet.retrieve, hq]
    have hfn : (db.reservations.filter (fun r => r.user = a.id)).find?
        (fun r => r.id = rid) = none := by
      rw [List.find?_eq_none]
      intro r hr
      obtain ⟨hmem, hu⟩ := List.mem_filter.mp hr
      simp only [decide_eq_true_eq] at hu ⊢
      intro hrid
      exact hown r hmem hrid hu
    rw [hfn]
  · intro hown
    rw [CartViewSet.retrieve]
    have hfn : (CartViewSet.get_queryset db a).find?
        (fun c => c.id = cid) = none := by
      rw [List.find?_eq_none]
      intro c hc
      obtain ⟨hmem, hu⟩ := List.mem_filter.mp hc
      simp only [decide_eq_true_eq] at hu ⊢
      intro hcid
      exact hown c hmem hcid hu
    rw [hfn]
  · intro hs hm hdc hown
    have hq : OrderViewSet.get_queryset db a =
        db.orders.filter (fun o => o.delivery_crew = some a.id) := by
      rw [OrderViewSet.get_queryset, if_neg (by simp [hs, hm]),
        if_pos (by simp [hdc])]
    have hperm : (IsManager a || IsDeliveryCrew a) = true := by
      simp [IsDeliveryCrew, hdc]
    rw [OrderViewSet.update, if_neg (by simp [hperm]), hq]
    have hfn : (db.orders.filter (fun o => o.delivery_crew = some a.id)).find?
        (fun o => o.id = oid) = none := by
      rw [List.find?_eq_none]
      intro o ho
      obtain ⟨hmem, hu⟩ := List.mem_filter.mp ho
      simp only [decide_eq_true_eq] at hu ⊢
      intro hoid
      exact hown o hmem hoid hu
    rw [hfn]
  · intro hs hm hdc
    have hperm : (IsManager a || IsDeliveryCrew a) = false := by
      simp [IsManager, IsDeliveryCrew, hs, hm, hdc]
    rw [OrderViewSet.update, if_pos (by simp [hperm])]

/-- Witness for `ownership_hidden_as_notfound`: customer 1 retrieving the
order owned by user 2 gets 404. -/
theorem ownership_hidden_as_notfound_witness :
    OrderViewSet.retrieve db8 customerB 1 = (.notFound, db8) :=
  (ownership_hidden_as_notfound db8 customerB 1 1 1 {}).1
    rfl (by decide) (by decide) (by decide)

/-- C9: reservation creation validates guests in [1, 20], no past date, no
past time on a same-day reservation, and business hours 11:00–22:00 with
both bounds inclusive; each violated rule yields its own distinct
field-level validation error (`fieldOf` lists the field), and a request
satisfying all rules is accepted. -/
theorem reservation_create_rules (today : Int) (now : Nat) (rid u : Nat)
    (g rdate : Int) (rtime : Nat) :
    (g < 1 →
      reservationCreate today now rid u g rdate rtime = .error .guestsMin) ∧
    (1 ≤ g → 20 < g →
      reservationCreate today now rid u g rdate rtime = .error .guestsMax) ∧
    (1 ≤ g → g ≤ 20 → rdate < today →
      reservationCreate today now rid u g rdate rtime = .error .dateInPast) ∧
    (1 ≤ g → g ≤ 20 → rdate = today → rtime < now →
      reservationCreate today now rid u g rdate rtime = .error .timeInPast) ∧
    (1 ≤ g → g ≤ 20 → today ≤ rdate → (rdate = today → now ≤ rtime) →
      (rtime < 660 ∨ 1320 < rtime) →
      reservationCreate today now rid u g rdate rtime = .error .outsideHours) ∧
    (1 ≤ g → g ≤ 20 → today ≤ rdate → (rdate = today → now ≤ rtime) →
      660 ≤ rtime → rtime ≤ 1320 →
      reservationCreate today now rid u g rdate rtime =
        .ok { id := rid, user := u, number_of_guests := g,
              reservation_date := rdate, reservation_time := rtime }) ∧
    ([ReservationSerializer.RErr.guestsMin, .guestsMax, .dateInPast,
        .timeInPast, .outsideHours].map ReservationSerializer.fieldOf =
      ["number_of_guests", "number_of_guests", "reservation_date",
        "reservation_time", "reservation_time"]) := by
  refine ⟨?_, ?_, ?_, ?_, ?_, ?_, by rfl⟩
  · intro h1
    simp [reservationCreate, ReservationSerializer.runValidation,
      ReservationSerializer.validate_number_of_guests, h1]
  · intro h1 h2
    simp [reservationCreate, ReservationSerializer.runValidation,
      ReservationSerializer.validate_number_of_guests,
      show ¬ g < 1 by omega, h2]
  · intro h1 h2 h3
    simp [reservationCreate, ReservationSerializer.runValidation,
      ReservationSerializer.validate_number_of_guests,
      ReservationSerializer.runDateAndCross,
      ReservationSerializer.validate_reservation_date,
      show ¬ g < 1 by omega, show ¬ (20:Int) < g by omega, h3]
  · intro h1 h2 h3 h4
    subst h3
    simp [reservationCreate, ReservationSerializer.runValidation,
      ReservationSerializer.validate_number_of_guests,
      ReservationSerializer.runDateAndCross,
      ReservationSerializer.validate_reservation_date,
      ReservationSerializer.validate,
      show ¬ g < 1 by omega, show ¬ (20:Int) < g by omega,
      show ¬ rdate < rdate by omega, h4]
  · intro h1 h2 h3 h4 h5
    by_cases hdt : rdate = today
    · subst hdt
      have hnow : ¬ rtime < now := by
        have := h4 rfl
        omega
      rcases h5 with h5 | h5 <;>
        simp [reservationCreate, ReservationSerializer.runValidation,
          ReservationSerializer.validate_number_of_guests,
          ReservationSerializer.runDateAndCross,
          ReservationSerializer.validate_reservation_date,
          ReservationSerializer.validate,
          ReservationSerializer.businessHoursCheck,
          ReservationSerializer.opening_time,
          ReservationSerializer.closing_time,
          show ¬ g < 1 by omega, show ¬ (20:Int) < g by omega,
          show ¬ rdate < rdate by omega, hnow, h5]
    · rcases h5 with h5 | h5 <;>
        simp [reservationCreate, ReservationSerializer.runValidation,
          ReservationSerializer.validate_number_of_guests,
          ReservationSerializer.runDateAndCross,
          ReservationSerializer.validate_reservation_date,
          ReservationSerializer.validate,
          ReservationSerializer.businessHoursCheck,
          ReservationSerializer.opening_time,
          ReservationSerializer.closing_time,
          show ¬ rdate < today by omega,
          show ¬ g < 1 by omega, show ¬ (20:Int) < g by omega, hdt, h5]
  · intro h1 h2 h3 h4 h5 h6
    by_cases hdt : rdate = today
    · subst hdt
      have hnow : ¬ rtime < now := by
        have := h4 rfl
        omega
      simp [reservationCreate, ReservationSerializer.runValidation,
        ReservationSerializer.validate_number_of_guests,
        ReservationSerializer.runDateAndCross,
        ReservationSerializer.validate_reservation_date,
        ReservationSerializer.validate,
        ReservationSerializer.businessHoursCheck,
        ReservationSerializer.opening_time,
        ReservationSerializer.closing_time,
        show ¬ g < 1 by omega, show ¬ (20:Int) < g by omega,
        show ¬ rdate < rdate by omega, hnow,
        show ¬ rtime < 660 by omega, show ¬ (1320:Nat) < rtime by omega]
    · simp [reservationCreate, ReservationSerializer.runValidation,
        ReservationSerializer.validate_number_of_guests,
        ReservationSerializer.runDateAndCross,
        ReservationSerializer.validate_reservation_date,
        ReservationSerializer.validate,
        ReservationSerializer.businessHoursCheck,
        ReservationSerializer.opening_time,
        ReservationSerializer.closing_time,
        show ¬ rdate < today by omega, hdt,
        show ¬ g < 1 by omega, show ¬ (20:Int) < g by omega,
        show ¬ rtime < 660 by omega, show ¬ (1320:Nat) < rtime by omega]

/-- Witness for `reservation_create_rules`: with today = 100 and clock
12:00 (720), a valid booking for tomorrow at 19:00 (1140) with 4 guests is
accepted, and the 22:00 closing bound is inclusive today. -/
theorem reservation_create_rules_witness :
    reservationCreate 100 720 1 1 4 101 1140 =
      .ok { id := 1, user := 1, number_of_guests := 4,
            reservation_date := 101, reservation_time := 1140 } ∧
    reservationCreate 100 720 2 1 2 100 1320 =
      .ok { id := 2, user := 1, number_of_guests := 2,
            reservation_date := 100, reservation_time := 1320 } := by
  constructor
  · exact (reservation_create_rules 100 720 1 1 4 101 1140).2.2.2.2.2.1
      (by norm_num) (by norm_num) (by norm_num)
      (fun h => absurd h (by norm_num)) (by norm_num) (by norm_num)
  · exact (reservation_create_rules 100 720 2 1 2 100 1320).2.2.2.2.2.1
      (by norm_num) (by norm_num) (by norm_num)
      (fun _ => by norm_num) (by norm_num) (by norm_num)

/-- C10: a partial reservation update whose patch omits `reservation_time`
(for instance a patch touching only `number_of_guests` or
`special_requests`) passes its field validators but then crashes in
`validate`: the unguarded comparison of the missing (`None`) time against
the opening/closing times raises an unhandled `TypeError` instead of
producing a validation outcome or succeeding. -/
theorem reservation_patch_missing_time (today : Int) (now : Nat)
    (guests? : Option Int) (rdate? : Option Int)
    (hg : ∀ g, guests? = some g → 1 ≤ g ∧ g ≤ 20)
    (hd : ∀ dv, rdate? = some dv → today ≤ dv) :
    ReservationSerializer.runValidation today now guests? rdate? none =
      .error .typeError := by
  have hcross : ∀ rd : Option Int, (∀ dv, rd = some dv → today ≤ dv) →
      ReservationSerializer.runDateAndCross today now rd none =
        .error .typeError := by
    intro rd hrd
    cases rd with
    | none =>
        rw [ReservationSerializer.runDateAndCross,
          ReservationSerializer.validate]
        rw [if_neg (by simp), ReservationSerializer.businessHoursCheck]
    | some dv =>
        have hle := hrd dv rfl
        rw [ReservationSerializer.runDateAndCross,
          ReservationSerializer.validate_reservation_date,
          if_neg (by omega : ¬ dv < today)]
        rw [ReservationSerializer.validate]
        by_cases hdt : dv = today
        · subst hdt
          rw [if_pos rfl]
        · rw [if_neg (by simp [hdt]), ReservationSerializer.businessHoursCheck]
  cases guests? with
  | none =>
      rw [ReservationSerializer.runValidation]
      exact hcross rdate? hd
  | some g =>
      obtain ⟨hg1, hg2⟩ := hg g rfl
      rw [ReservationSerializer.runValidation,
        ReservationSerializer.validate_number_of_guests,
        if_neg (by omega : ¬ g < 1), if_neg (by omega : ¬ (20:Int) < g)]
      exact hcross rdate? hd

/-- Witness for `reservation_patch_missing_time`: a patch changing only the
guest count (to a valid 3) crashes with the `TypeError`. -/
theorem reservation_patch_missing_time_witness :
    ReservationSerializer.runValidation 100 720 (some 3) none none =
      .error .typeError :=
  reservation_patch_missing_time 100 720 (some 3) none
    (fun g h => by cases h; exact ⟨by norm_num, by norm_num⟩)
    (fun dv h => Option.noConfusion h)

/-- Cart creation touches only the cart table. -/
theorem cartCreate_tables (db : DB) (a : UserRec) (cid mid : Nat) (q : Int) :
    (CartViewSet.createLine db a cid mid q).2.orders = db.orders ∧
    (CartViewSet.createLine db a cid mid q).2.orderItems = db.orderItems := by
  rw [CartViewSet.createLine]
  split
  · exact ⟨rfl, rfl⟩
  · split
    · exact ⟨rfl, rfl⟩
    · exact ⟨rfl, rfl⟩

/-- Cart update touches only the cart table. -/
theorem cartUpdate_tables (db : DB) (a : UserRec) (cid : Nat)
    (q? : Option Int) (mid? : Option Nat) :
    (CartViewSet.updateLine db a cid q? mid?).2.orders = db.orders ∧
    (CartViewSet.updateLine db a cid q? mid?).2.orderItems = db.orderItems := by
  rw [CartViewSet.updateLine]
  split
  · exact ⟨rfl, rfl⟩
  · split
    · exact ⟨rfl, rfl⟩
    · dsimp only
      split
      · exact ⟨rfl, rfl⟩
      · exact ⟨rfl, rfl⟩

/-- Tables other than orders/orderItems unchanged ⟹ the per-order line
lists and totals of any tracked order are preserved. -/
theorem preserves_of_tables (db db' : DB) (oid : Nat)
    (ho : db'.orders = db.orders) (hi : db'.orderItems = db.orderItems) :
    orderLinesOf db' oid = orderLinesOf db oid ∧
    ∀ o ∈ db'.orders, o.id = oid →
      ∃ o' ∈ db.orders, o'.id = oid ∧ o'.total = o.total := by
  constructor
  · simp [orderLinesOf, hi]
  · intro o hoo hid
    rw [ho] at hoo
    exact ⟨o, hoo, hid, rfl⟩

/-- `setOrder` with a total- and id-preserving field change keeps every
order's total and all order lines. -/
theorem preserves_of_setOrder (db : DB) (oid0 : Nat) (f : Order → Order)
    (oid : Nat) (hf : ∀ o, (f o).total = o.total ∧ (f o).id = o.id) :
    orderLinesOf (OrderViewSet.setOrder db oid0 f) oid = orderLinesOf db oid ∧
    ∀ o ∈ (OrderViewSet.setOrder db oid0 f).orders, o.id = oid →
      ∃ o' ∈ db.orders, o'.id = oid ∧ o'.total = o.total := by
  constructor
  · rfl
  · intro o ho hid
    simp only [OrderViewSet.setOrder, List.mem_map] at ho
    obtain ⟨o1, h1, h2⟩ := ho
    by_cases hcase : o1.id = oid0
    · rw [if_pos hcase] at h2
      subst h2
      refine ⟨o1, h1, ?_, ((hf o1).1).symm⟩
      rw [← (hf o1).2]
      exact hid
    · rw [if_neg hcase] at h2
      subst h2
      exact ⟨o1, h1, hid, rfl⟩

/-- The writable order-update fields never touch `total` or `id`. -/
theorem applyOrderData_total_id (d : OrderViewSet.OrderData) (o : Order) :
    (OrderViewSet.applyOrderData d o).total = o.total ∧
    (OrderViewSet.applyOrderData d o).id = o.id := by
  rw [OrderViewSet.applyOrderData]
  cases d.status? <;> cases d.delivery_crew? <;> exact ⟨rfl, rfl⟩

/-- Every order line written by checkout belongs to the new order id. -/
theorem orderItemsFor_order (newId : Nat) (lines : List Cart) :
    ∀ oi ∈ OrderViewSet.orderItemsFor newId lines, oi.order = newId := by
  intro oi h
  obtain ⟨c, _, rfl⟩ := List.mem_map.mp h
  rfl

/-- A committed `runAtomic` run applied every write. -/
theorem runAtomic_some (db : DB) (effs : List (DB → DB)) (failAt : Option Nat)
    (db1 : DB) (h : OrderViewSet.runAtomic db effs failAt = some db1) :
    db1 = OrderViewSet.applyEffects db effs := by
  rw [OrderViewSet.runAtomic.eq_def] at h
  cases failAt with
  | none => exact (Option.some.injEq _ _ ▸ h).symm
  | some k =>
      dsimp only at h
      by_cases hk : k < effs.length
      · rw [if_pos hk] at h; exact Option.noConfusion h
      · rw [if_neg hk] at h; exact (Option.some.injEq _ _ ▸ h).symm

/-- The committed state of a failure-free checkout. -/
theorem create_none_commit (db : DB) (a : UserRec) (newId : Nat) (today : Int)
    (hne : OrderViewSet.cart_items db a.id ≠ []) :
    (OrderViewSet.create db a newId today none).2 =
      { db with
          orders := db.orders ++
            [OrderViewSet.orderRowFor a.id newId today
              (OrderViewSet.cartTotal db a.id)],
          orderItems := db.orderItems ++
            OrderViewSet.orderItemsFor newId (OrderViewSet.cart_items db a.id),
          carts := db.carts.filter (fun c => ¬ c.user = a.id) } := by
  have hni : (OrderViewSet.cart_items db a.id).isEmpty = false := by
    simpa [List.isEmpty_iff] using hne
  rw [OrderViewSet.create, hni]
  simp only [Bool.false_eq_true, if_false]
  rw [OrderViewSet.runAtomic, OrderViewSet.placeOrder_commit]

/-- One operation that avoids the tracked order id and deletes no menu item
among its lines (`mids` lists the menu items its order lines reference)
preserves that order's lines and its total. -/
theorem applyOp_preserves (oid : Nat) (mids : List Nat) (op : Op)
    (h : opAvoids oid op) (hm : opAvoidsMenuOf mids op) (db : DB)
    (hL : ∀ oi ∈ orderLinesOf db oid, oi.menuitem ∈ mids) :
    orderLinesOf (applyOp db op) oid = orderLinesOf db oid ∧
    ∀ o ∈ (applyOp db op).orders, o.id = oid →
      ∃ o' ∈ db.orders, o'.id = oid ∧ o'.total = o.total := by
  cases op with
  | opCartCreate a cid mid q =>
      obtain ⟨ho, hi⟩ := cartCreate_tables db a cid mid q
      exact preserves_of_tables db _ oid ho hi
  | opCartUpdate a cid q? mid? =>
      obtain ⟨ho, hi⟩ := cartUpdate_tables db a cid q? mid?
      exact preserves_of_tables db _ oid ho hi
  | opCartClear a =>
      exact preserves_of_tables db _ oid rfl rfl
  | opMenuSetPrice mid p =>
      exact preserves_of_tables db _ oid rfl rfl
  | opMenuSetFeatured mid b =>
      exact preserves_of_tables db _ oid rfl rfl
  | opMenuDestroy mid =>
      constructor
      · have hstep : orderLinesOf (applyOp db (.opMenuDestroy mid)) oid =
            (orderLinesOf db oid).filter (fun oi => ¬ oi.menuitem = mid) := by
          show ((db.orderItems.filter (fun oi => ¬ oi.menuitem = mid)).filter
            (fun oi => oi.order = oid)) = _
          rw [orderLinesOf, List.filter_filter, List.filter_filter]
          exact List.filter_congr (fun a _ => Bool.and_comm _ _)
        rw [hstep, List.filter_eq_self.mpr]
        intro oi hoi
        simp only [decide_eq_true_eq, decide_not, Bool.not_eq_true']
        have hmem := hL oi hoi
        have hne : oi.menuitem ≠ mid := by
          intro heq
          rw [heq] at hmem
          exact hm hmem
        simp [hne]
      · intro o ho hid
        exact ⟨o, ho, hid, rfl⟩
  | opAssignCrew a oid1 uid =>
      rw [applyOp, OrderViewSet.assign_delivery_crew]
      split
      · exact preserves_of_tables db _ oid rfl rfl
      · split
        · exact preserves_of_tables db _ oid rfl rfl
        · split
          · exact preserves_of_setOrder db oid1 _ oid (fun o => ⟨rfl, rfl⟩)
          · exact preserves_of_tables db _ oid rfl rfl
  | opOrderUpdate a oid1 d =>
      rw [applyOp, OrderViewSet.update]
      split
      · exact preserves_of_tables db _ oid rfl rfl
      · split
        · exact preserves_of_tables db _ oid rfl rfl
        · split
          · split
            · exact preserves_of_tables db _ oid rfl rfl
            · split
              · exact preserves_of_tables db _ oid rfl rfl
              · exact preserves_of_setOrder db oid1 _ oid (fun o => ⟨rfl, rfl⟩)
          · split
            · exact preserves_of_setOrder db oid1 _ oid
                (fun o => applyOrderData_total_id d o)
            · exact preserves_of_tables db _ oid rfl rfl
  | opOrderCreate a newId today failAt =>
      rw [applyOp, OrderViewSet.create]
      split
      · exact preserves_of_tables db _ oid rfl rfl
      · split
        · exact preserves_of_tables db _ oid rfl rfl
        next db1 heq =>
          have hdb1 := runAtomic_some db _ failAt db1 heq
          rw [OrderViewSet.placeOrder_commit] at hdb1
          subst hdb1
          constructor
          · show (db.orderItems ++
              OrderViewSet.orderItemsFor newId
                (OrderViewSet.cart_items db a.id)).filter
                  (fun oi => oi.order = oid) = orderLinesOf db oid
            rw [List.filter_append]
            have hnil : (OrderViewSet.orderItemsFor newId
                (OrderViewSet.cart_items db a.id)).filter
                  (fun oi => oi.order = oid) = [] := by
              rw [List.filter_eq_nil_iff]
              intro oi hoi
              have := orderItemsFor_order newId _ oi hoi
              simp only [decide_eq_true_eq]
              rw [this]
              exact h
            rw [hnil, List.append_nil]
            rfl
          · intro o ho hid
            simp only [List.mem_append, List.mem_singleton] at ho
            rcases ho with ho | ho
            · exact ⟨o, ho, hid, rfl⟩
            · subst ho
              exact absurd hid h

/-- Iterated preservation over a list of later operations. -/
theorem foldl_preserves (oid : Nat) (mids : List Nat) (ops : List Op) :
    ∀ db : DB, (∀ op ∈ ops, opAvoids oid op ∧ opAvoidsMenuOf mids op) →
    (∀ oi ∈ orderLinesOf db oid, oi.menuitem ∈ mids) →
    orderLinesOf (ops.foldl applyOp db) oid = orderLinesOf db oid ∧
    ∀ o ∈ (ops.foldl applyOp db).orders, o.id = oid →
      ∃ o' ∈ db.orders, o'.id = oid ∧ o'.total = o.total := by
  induction ops with
  | nil =>
      intro db _ _
      exact ⟨rfl, fun o ho hid => ⟨o, ho, hid, rfl⟩⟩
  | cons op ops ih =>
      intro db hops hL
      have h1 := applyOp_preserves oid mids op (hops op (by simp)).1
        (hops op (by simp)).2 db hL
      have hL1 : ∀ oi ∈ orderLinesOf (applyOp db op) oid,
          oi.menuitem ∈ mids := by
        intro oi hoi
        rw [h1.1] at hoi
        exact hL oi hoi
      have h2 := ih (applyOp db op) (fun op1 h1 => hops op1 (by simp [h1])) hL1
      constructor
      · rw [List.foldl_cons, h2.1, h1.1]
      · intro o ho hid
        rw [List.foldl_cons] at ho
        obtain ⟨o1, ho1, hid1, htot1⟩ := h2.2 o ho hid
        obtain ⟨o2, ho2, hid2, htot2⟩ := h1.2 o1 ho1 hid1
        exact ⟨o2, ho2, hid2, htot2.trans htot1⟩

/-- C2 amended: order totals are exact snapshots.  A checkout with a fresh
order id makes the order's `total` the exact sum of the `price` of its
order lines (which copy menuitem/quantity/unit_price/price from the cart
lines), and this equality — and the order-line list itself — survives every
later operation (order status/crew updates, cart mutations, catalog price
or featured changes, further checkouts, and even deletions of other menu
items) with one exception: deleting a menu item that appears among the
order's lines cascade-deletes those lines while `total` is untouched, so
preservation holds exactly for operation sequences that avoid such a
deletion. -/
theorem order_total_snapshot (db : DB) (a : UserRec) (newId : Nat)
    (today : Int) (ops : List Op)
    (hne : OrderViewSet.cart_items db a.id ≠ [])
    (hfreshO : ∀ o ∈ db.orders, o.id ≠ newId)
    (hfreshI : ∀ oi ∈ db.orderItems, oi.order ≠ newId)
    (hops : ∀ op ∈ ops, opAvoids newId op ∧
      opAvoidsMenuOf ((OrderViewSet.cart_items db a.id).map
        (fun c => c.menuitem)) op) :
    orderLinesOf (ops.foldl applyOp
        (OrderViewSet.create db a newId today none).2) newId =
      OrderViewSet.orderItemsFor newId (OrderViewSet.cart_items db a.id) ∧
    ∀ o ∈ (ops.foldl applyOp
        (OrderViewSet.create db a newId today none).2).orders,
      o.id = newId →
      o.total = orderLinesTotal (ops.foldl applyOp
        (OrderViewSet.create db a newId today none).2) newId := by
  have hcommit := create_none_commit db a newId today hne
  have hlines1 : orderLinesOf (OrderViewSet.create db a newId today none).2
      newId = OrderViewSet.orderItemsFor newId
        (OrderViewSet.cart_items db a.id) := by
    rw [orderLinesOf, hcommit]
    dsimp only
    rw [List.filter_append]
    have h0 : db.orderItems.filter (fun oi => oi.order = newId) = [] := by
      rw [List.filter_eq_nil_iff]
      intro oi hoi
      simp only [decide_eq_true_eq]
      exact hfreshI oi hoi
    have h1 : (OrderViewSet.orderItemsFor newId
        (OrderViewSet.cart_items db a.id)).filter
          (fun oi => oi.order = newId) =
        OrderViewSet.orderItemsFor newId (OrderViewSet.cart_items db a.id) := by
      rw [List.filter_eq_self]
      intro oi hoi
      simp only [decide_eq_true_eq]
      exact orderItemsFor_order newId _ oi hoi
    rw [h0, h1, List.nil_append]
  have hL1 : ∀ oi ∈ orderLinesOf
      (OrderViewSet.create db a newId today none).2 newId,
      oi.menuitem ∈ (OrderViewSet.cart_items db a.id).map
        (fun c => c.menuitem) := by
    rw [hlines1]
    intro oi hoi
    obtain ⟨c, hc, rfl⟩ := List.mem_map.mp hoi
    exact List.mem_map.mpr ⟨c, hc, rfl⟩
  obtain ⟨hl, ht⟩ := foldl_preserves newId
    ((OrderViewSet.cart_items db a.id).map (fun c => c.menuitem)) ops
    ((OrderViewSet.create db a newId today none).2) hops hL1
  have htot1 : ∀ o ∈ (OrderViewSet.create db a newId today none).2.orders,
      o.id = newId →
      o.total = orderLinesTotal
        (OrderViewSet.create db a newId today none).2 newId := by
    intro o ho hid
    rw [hcommit] at ho
    dsimp only at ho
    rw [List.mem_append] at ho
    rcases ho with ho | ho
    · exact absurd hid (hfreshO o ho)
    · rw [List.mem_singleton] at ho
      subst ho
      show OrderViewSet.cartTotal db a.id = _
      rw [orderLinesTotal, hlines1, OrderViewSet.cartTotal]
      congr 1
      simp [OrderViewSet.orderItemsFor, List.map_map, Function.comp]
  constructor
  · rw [hl, hlines1]
  · intro o ho hid
    obtain ⟨o1, ho1, hid1, htot'⟩ := ht o ho hid
    have hx := htot1 o1 ho1 hid1
    rw [orderLinesTotal, hl, ← orderLinesTotal, ← htot']
    exact hx

/-- C2 counterexample: after user 1 checks out the cart of `db4` into order
7 (total 12.99, one line for menu item 5), a single later operation — the
admin DELETE of menu item 5 — cascade-deletes that order line while the
total stays 12.99, so `total = sum(line_price)` no longer holds: the
equality is NOT preserved by every later operation. -/
theorem menu_delete_breaks_order_total :
    ((applyOp (OrderViewSet.create db4 alice 7 0 none).2
        (Op.opMenuDestroy 5)).orders.map (fun o => o.total)) = [1299] ∧
    orderLinesOf (applyOp (OrderViewSet.create db4 alice 7 0 none).2
        (Op.opMenuDestroy 5)) 7 = [] ∧
    orderLinesTotal (applyOp (OrderViewSet.create db4 alice 7 0 none).2
        (Op.opMenuDestroy 5)) 7 = 0 ∧
    (1299 : Int) ≠ 0 := by
  refine ⟨by decide, by decide, by decide, by decide⟩

/-- Witness for `order_total_snapshot`: user 1 checks out the cart of `db4`
into order 7; a later catalog price change and the deletion of another menu
item do not touch its lines. -/
theorem order_total_snapshot_witness :
    orderLinesOf ([Op.opMenuSetPrice 5 9999,
        Op.opMenuDestroy 6].foldl applyOp
        (OrderViewSet.create db4 alice 7 0 none).2) 7 =
      OrderViewSet.orderItemsFor 7 (OrderViewSet.cart_items db4 alice.id) :=
  (order_total_snapshot db4 alice 7 0
    [Op.opMenuSetPrice 5 9999, Op.opMenuDestroy 6]
    (by decide) (by intro o ho; simp [db4] at ho)
    (by intro oi hoi; simp [db4] at hoi)
    (by
      intro op hop
      simp only [List.mem_cons, List.not_mem_nil, or_false] at hop
      rcases hop with hop | hop <;> subst hop
      · exact ⟨trivial, trivial⟩
      · refine ⟨trivial, ?_⟩
        show (6 : Nat) ∉ (OrderViewSet.cart_items db4 alice.id).map
          (fun c => c.menuitem)
        decide)).1
